import Mathlib

/-!
Shallow embedding of the ipa-games live quiz host/player logic.

The host controller logic is translated from `src/routes/host/Game.tsx`
(handleJudge, handleCorrect, handleWrong, activateQuestion,
deactivateQuestion, startFinalJeopardy, handleFJCorrect, handleFJWrong,
finishGame, fetchBuzzes, the derived `pendingBuzzes` / `isNextUp` values).
The player client logic is translated from the player route source
(handleBuzz, handleSubmitWager, the judging-timer expiry effect, the
preview-activation effect).  Content import is translated from
`lib/content.ts` (validate, importContent).
-/

namespace IpaGames

/-- Buzz status enum from the buzzes table. -/
inductive BuzzStatus
  | pending
  | correct
  | wrong
  | expired
  | skipped
deriving DecidableEq, Repr

/-- Wager status enum from the wagers table. -/
inductive WagerStatus
  | pending
  | correct
  | wrong
deriving DecidableEq, Repr

/-- Room lifecycle status enum. -/
inductive RoomStatus
  | lobby
  | round_1
  | round_2
  | final_jeopardy
  | finished
deriving DecidableEq, Repr

/-- A teams-table row (the fields the game logic reads and writes).
The list of teams is kept in join order (`order('created_at')` at load). -/
structure Team where
  id : Nat
  score : Int
  is_active : Bool
deriving DecidableEq, Repr

/-- A questions-table row (the fields the game logic reads and writes). -/
structure Question where
  id : Nat
  point_value : Option Int
  is_answered : Bool
  answered_by_team_id : Option Nat
deriving DecidableEq, Repr

/-- A buzzes-table row.  `buzzed_at` is the server-assigned timestamp. -/
structure Buzz where
  id : Nat
  question_id : Nat
  team_id : Nat
  buzzed_at : Nat
  status : BuzzStatus
deriving DecidableEq, Repr

/-- A wagers-table row (Final Jeopardy). -/
structure Wager where
  id : Nat
  team_id : Nat
  amount : Int
  status : WagerStatus
deriving DecidableEq, Repr

/-- Preview info broadcast by the picking client (question id and the
self-stamped start time of the 10-second countdown). -/
structure PreviewInfo where
  questionId : Nat
  startTs : Nat
deriving DecidableEq, Repr

/-- Combined store rows + host-local state that the judging and phase
logic in Game.tsx operates on.  `buzzes` and `wagers` are the full
table contents; the host's displayed queue is derived by `hostQueue`. -/
structure GameState where
  teams : List Team
  questions : List Question
  buzzes : List Buzz
  wagers : List Wager
  current_question_id : Option Nat
  judgingBuzzId : Option Nat
  judgeStartTime : Option Nat
  currentTurnTeamId : Option Nat
  roomStatus : RoomStatus
  previewInfo : Option PreviewInfo
  fjRevealOrder : List Nat
  fjReviewIdx : Nat
deriving DecidableEq, Repr

/-- RESPONSE_SECONDS constant from Game.tsx. -/
def RESPONSE_SECONDS : Nat := 30

/-- Queue ordering relation: ascending server-assigned timestamp. -/
def buzzLe (a b : Buzz) : Prop := a.buzzed_at ≤ b.buzzed_at

instance : DecidableRel buzzLe := fun a b => Nat.decLe a.buzzed_at b.buzzed_at

instance : IsTotal Buzz buzzLe := ⟨fun a b => Nat.le_total a.buzzed_at b.buzzed_at⟩

instance : IsTrans Buzz buzzLe := ⟨fun _ _ _ h h' => Nat.le_trans h h'⟩

/-- fetchBuzzes from Game.tsx:
`from('buzzes').select().eq('question_id', qid).order('buzzed_at', ascending)`.
A stable sort models the store's ORDER BY. -/
def fetchBuzzes (db : List Buzz) (qid : Nat) : List Buzz :=
  List.insertionSort buzzLe (db.filter (fun b => b.question_id == qid))

/-- The host's buzz list: empty when no question is active (the effect on
`room.current_question_id` calls `setBuzzes([])`), otherwise the fetched,
timestamp-ordered buzzes of the active question. -/
def hostQueue (s : GameState) : List Buzz :=
  match s.current_question_id with
  | none => []
  | some qid => fetchBuzzes s.buzzes qid

/-- Derived `pendingBuzzes = buzzes.filter(b => b.status === 'pending')`. -/
def pendingBuzzes (s : GameState) : List Buzz :=
  (hostQueue s).filter (fun b => b.status == BuzzStatus.pending)

/-- Derived `activeQuestion`: the question whose id equals
`room.current_question_id`. -/
def activeQuestion (s : GameState) : Option Question :=
  s.questions.find? (fun q => some q.id == s.current_question_id)

/-- `scores.get(teamId) ?? 0` — score lookup with default 0. -/
def getScore (teams : List Team) (tid : Nat) : Int :=
  match teams.find? (fun t => t.id == tid) with
  | some t => t.score
  | none => 0

/-- `teams.update({score}).eq('id', tid)` — update one team's score row. -/
def updateTeamScore (teams : List Team) (tid : Nat) (newScore : Int) : List Team :=
  teams.map (fun t => if t.id = tid then { t with score := newScore } else t)

/-- Row-level effect of the buzz status update on a single row. -/
def statusUpd (bid : Nat) (st : BuzzStatus) (b : Buzz) : Buzz :=
  if b.id = bid then { b with status := st } else b

/-- `buzzes.update({status}).eq('id', bid)`. -/
def setBuzzStatus (buzzes : List Buzz) (bid : Nat) (st : BuzzStatus) : List Buzz :=
  buzzes.map (statusUpd bid st)

/-- `wagers.update({status}).eq('id', wid)`. -/
def setWagerStatus (wagers : List Wager) (wid : Nat) (st : WagerStatus) : List Wager :=
  wagers.map (fun w => if w.id = wid then { w with status := st } else w)

/-- clearJudging from Game.tsx. -/
def clearJudging (s : GameState) : GameState :=
  { s with judgingBuzzId := none, judgeStartTime := none }

/-- assignTurn from Game.tsx (state part; the broadcast carries the same id). -/
def assignTurn (s : GameState) (tid : Option Nat) : GameState :=
  { s with currentTurnTeamId := tid }

/-- deactivateQuestion from Game.tsx: `rooms.update({current_question_id: null})`. -/
def deactivateQuestion (s : GameState) : GameState :=
  { s with current_question_id := none }

/-- activateQuestion from Game.tsx: `rooms.update({current_question_id: qid})`,
then `setPreviewInfo(null)` and the `question_activated` broadcast. -/
def activateQuestion (s : GameState) (qid : Nat) : GameState :=
  { s with current_question_id := some qid, previewInfo := none }

/-- The `timer_start` broadcast payload issued by handleJudge. -/
structure TimerPayload where
  start_timestamp : Nat
  duration_seconds : Nat
  team_id : Nat
  buzz_id : Nat
deriving DecidableEq, Repr

/-- handleJudge from Game.tsx: takes whichever buzz it is given, records it
as under judgment with a fresh start time, and broadcasts a
RESPONSE_SECONDS timer.  It performs no validation of its argument. -/
def handleJudge (s : GameState) (b : Buzz) (now : Nat) : GameState × TimerPayload :=
  ({ s with judgingBuzzId := some b.id, judgeStartTime := some now },
   { start_timestamp := now, duration_seconds := RESPONSE_SECONDS,
     team_id := b.team_id, buzz_id := b.id })

/-- handleCorrect from Game.tsx: guard on activeQuestion; award
`point_value ?? 0`; mark the buzz correct; mark the question answered by
the buzzing team; then clearJudging, assignTurn(buzz.team_id),
deactivateQuestion. -/
def handleCorrect (s : GameState) (b : Buzz) : GameState :=
  match activeQuestion s with
  | none => s
  | some q =>
    let pointValue := q.point_value.getD 0
    let currentScore := getScore s.teams b.team_id
    let newScore := currentScore + pointValue
    let s1 : GameState := { s with
      buzzes := setBuzzStatus s.buzzes b.id BuzzStatus.correct,
      teams := updateTeamScore s.teams b.team_id newScore,
      questions := s.questions.map (fun x =>
        if x.id = q.id then
          { x with is_answered := true, answered_by_team_id := some b.team_id }
        else x) }
    deactivateQuestion (assignTurn (clearJudging s1) (some b.team_id))

/-- handleWrong from Game.tsx: guard on activeQuestion; deduct
`point_value ?? 0`; mark the buzz wrong; if no other pending buzz remains
in the local queue, also mark the question answered, clear the turn, and
deactivate; always clearJudging. -/
def handleWrong (s : GameState) (b : Buzz) : GameState :=
  match activeQuestion s with
  | none => s
  | some q =>
    let pointValue := q.point_value.getD 0
    let newScore := getScore s.teams b.team_id - pointValue
    let remainingPending :=
      (hostQueue s).filter (fun x => x.status == BuzzStatus.pending && x.id != b.id)
    let questionDone := remainingPending.isEmpty
    let s1 : GameState := { s with
      buzzes := setBuzzStatus s.buzzes b.id BuzzStatus.wrong,
      teams := updateTeamScore s.teams b.team_id newScore }
    let s2 : GameState :=
      if questionDone then
        { s1 with questions := s1.questions.map (fun x =>
            if x.id = q.id then { x with is_answered := true } else x) }
      else s1
    let s3 := clearJudging s2
    if questionDone then deactivateQuestion (assignTurn s3 none) else s3

/-- Ranking relation used by startFinalJeopardy's stable sort: descending
score (the JS comparator `scoreB - scoreA` on a stable Array.sort). -/
def scoreDescLe (a b : Team) : Prop := b.score ≤ a.score

instance : DecidableRel scoreDescLe := fun a b => Int.decLe b.score a.score

instance : IsTotal Team scoreDescLe := ⟨fun a b => Int.le_total b.score a.score⟩

instance : IsTrans Team scoreDescLe := ⟨fun _ _ _ h h' => Int.le_trans h' h⟩

/-- `[...teams].sort((a, b) => score(b) - score(a))` — stable descending sort. -/
def rankTeams (teams : List Team) : List Team :=
  List.insertionSort scoreDescLe teams

/-- Ids of the top-3 ranked teams (`ranked.slice(0, 3)`). -/
def top3ids (teams : List Team) : List Nat :=
  ((rankTeams teams).take 3).map (fun t => t.id)

/-- startFinalJeopardy from Game.tsx: rank by live score, set
`is_active := false` for every team past the third ranked slot, and move
the room to final_jeopardy.  (Advancing teams are not written to.) -/
def startFinalJeopardy (s : GameState) : GameState :=
  let eliminated := (rankTeams s.teams).drop 3
  { s with
    teams := s.teams.map (fun t =>
      if eliminated.any (fun e => e.id == t.id) then { t with is_active := false } else t),
    roomStatus := RoomStatus.final_jeopardy }

/-- finishGame from Game.tsx: `rooms.update({status: 'finished',
current_question_id: null})`. -/
def finishGame (s : GameState) : GameState :=
  { s with roomStatus := RoomStatus.finished, current_question_id := none }

/-- handleFJCorrect from Game.tsx: add the wager amount to the team's
score, mark the wager correct, then advance the review index or finish. -/
def handleFJCorrect (s : GameState) (w : Wager) : GameState :=
  let newScore := getScore s.teams w.team_id + w.amount
  let s1 : GameState := { s with
    wagers := setWagerStatus s.wagers w.id WagerStatus.correct,
    teams := updateTeamScore s.teams w.team_id newScore }
  let nextIdx := s.fjReviewIdx + 1
  if s.fjRevealOrder.length ≤ nextIdx then finishGame s1
  else { s1 with fjReviewIdx := nextIdx }

/-- handleFJWrong from Game.tsx: subtract the wager amount from the
team's score, mark the wager wrong, then advance the review index or
finish. -/
def handleFJWrong (s : GameState) (w : Wager) : GameState :=
  let newScore := getScore s.teams w.team_id - w.amount
  let s1 : GameState := { s with
    wagers := setWagerStatus s.wagers w.id WagerStatus.wrong,
    teams := updateTeamScore s.teams w.team_id newScore }
  let nextIdx := s.fjReviewIdx + 1
  if s.fjRevealOrder.length ≤ nextIdx then finishGame s1
  else { s1 with fjReviewIdx := nextIdx }

/-- commitScoreEdit from Game.tsx (the direct score-adjust action). -/
def commitScoreEdit (s : GameState) (tid : Nat) (v : Int) : GameState :=
  { s with teams := updateTeamScore s.teams tid v }

/-- transitionToRound2 from Game.tsx (state part). -/
def transitionToRound2 (s : GameState) : GameState :=
  { s with roomStatus := RoomStatus.round_2 }

/-- `isNextUp` from the host render: `buzz.id === pendingBuzzes[0]?.id`.
The Judge button is rendered only when this holds. -/
def isNextUp (s : GameState) (b : Buzz) : Bool :=
  match (pendingBuzzes s).head? with
  | some first => first.id == b.id
  | none => false

/-- The row a buzzing client inserts.  Note there is no timestamp field:
the payload is exactly `{question_id, team_id, status: 'pending'}`. -/
structure BuzzInsert where
  question_id : Nat
  team_id : Nat
  status : BuzzStatus
deriving DecidableEq, Repr

/-- Player-client local state read by handleBuzz / handleSubmitWager. -/
structure PlayerState where
  myTeamId : Option Nat
  current_question_id : Option Nat
  hasBuzzed : Bool
  buzzing : Bool
  myScore : Int
deriving DecidableEq, Repr

/-- handleBuzz from the player route: guarded by
`!myTeam || !room.current_question_id || hasBuzzed || buzzing`; on
success it submits a pending-buzz insert carrying no timestamp. -/
def handleBuzz (p : PlayerState) : Option BuzzInsert :=
  match p.myTeamId, p.current_question_id with
  | some tid, some qid =>
    if p.hasBuzzed || p.buzzing then none
    else some { question_id := qid, team_id := tid, status := BuzzStatus.pending }
  | _, _ => none

/-- The store's insert of a buzz row: the server stamps `buzzed_at` with
its own clock at insert time (the client supplied none). -/
def serverInsertBuzz (db : List Buzz) (p : BuzzInsert) (newId serverTime : Nat) : List Buzz :=
  db ++ [{ id := newId, question_id := p.question_id, team_id := p.team_id,
           buzzed_at := serverTime, status := p.status }]

/-- The judging-timer expiry effect in the player route: when remaining
hits 0 for the team under judgment with no submitted response, only that
team's buzz row is updated to expired. -/
def timerExpireSelfReport (db : List Buzz) (bid : Nat) : List Buzz :=
  setBuzzStatus db bid BuzzStatus.expired

/-- The wager amount computed by handleSubmitWager:
`Math.max(0, Math.min(Math.max(0, myScore), parseInt(input) || 0))`. -/
def clampWager (myScore raw : Int) : Int :=
  max 0 (min (max 0 myScore) raw)

/-- handleSubmitWager from the player route: inserts a pending wager with
the clamped amount for the player's team. -/
def handleSubmitWager (p : PlayerState) (raw : Int) (newId : Nat) : Option Wager :=
  match p.myTeamId with
  | none => none
  | some tid =>
    some { id := newId, team_id := tid, amount := clampWager p.myScore raw,
           status := WagerStatus.pending }

/-- The rooms-table fields written by question activation. -/
structure RoomRow where
  current_question_id : Option Nat
  status : RoomStatus
deriving DecidableEq, Repr

/-- The activation write `rooms.update({current_question_id: qid})`
performed both by the leased client (preview-activation effect) and by
the host fallback timer. -/
def writeCurrentQuestion (r : RoomRow) (qid : Nat) : RoomRow :=
  { r with current_question_id := some qid }

/-- A client's local projection of the activation-relevant state. -/
structure ClientProj where
  current_question_id : Option Nat
  previewInfo : Option PreviewInfo
deriving DecidableEq, Repr

/-- The `question_activated` broadcast handler run by every client:
clear the preview and set the local current question id. -/
def applyQuestionActivated (c : ClientProj) (qid : Nat) : ClientProj :=
  { c with previewInfo := none, current_question_id := some qid }

/-- Downstream effects (buzz subscription, question load) are React
effects keyed on `current_question_id`; they re-run iff the value
changed. -/
def effectRefires (before after : Option Nat) : Bool :=
  before != after

/-- One observable operation of the modeled system. -/
inductive HostOp
  | judge (b : Buzz) (now : Nat)
  | markCorrect (b : Buzz)
  | markWrong (b : Buzz)
  | fjCorrect (w : Wager)
  | fjWrong (w : Wager)
  | activate (qid : Nat)
  | deactivate
  | turn (tid : Option Nat)
  | startFJ
  | finish
  | scoreEdit (tid : Nat) (v : Int)
  | round2
  | buzzInsert (p : BuzzInsert) (newId serverTime : Nat)
  | buzzExpire (bid : Nat)
  | wagerInsert (w : Wager)
deriving Repr

/-- Step function collecting every state-mutating operation modeled from
the source. -/
def step : HostOp → GameState → GameState
  | HostOp.judge b now, s => (handleJudge s b now).1
  | HostOp.markCorrect b, s => handleCorrect s b
  | HostOp.markWrong b, s => handleWrong s b
  | HostOp.fjCorrect w, s => handleFJCorrect s w
  | HostOp.fjWrong w, s => handleFJWrong s w
  | HostOp.activate qid, s => activateQuestion s qid
  | HostOp.deactivate, s => deactivateQuestion s
  | HostOp.turn tid, s => assignTurn s tid
  | HostOp.startFJ, s => startFinalJeopardy s
  | HostOp.finish, s => finishGame s
  | HostOp.scoreEdit tid v, s => commitScoreEdit s tid v
  | HostOp.round2, s => transitionToRound2 s
  | HostOp.buzzInsert p newId serverTime, s =>
      { s with buzzes := serverInsertBuzz s.buzzes p newId serverTime }
  | HostOp.buzzExpire bid, s =>
      { s with buzzes := timerExpireSelfReport s.buzzes bid }
  | HostOp.wagerInsert w, s => { s with wagers := s.wagers ++ [w] }

/-- One raw imported question (content JSON).  `point_value = none`
models a non-numeric `point_value` field, which validation rejects. -/
structure ImportQuestion where
  point_value : Option Int
  answer : String
  correct_question : String
deriving DecidableEq, Repr

/-- One raw imported category. -/
structure ImportCategory where
  name : String
  questions : List ImportQuestion
deriving DecidableEq, Repr

/-- One raw imported round. -/
structure ImportRound where
  round : Nat
  categories : List ImportCategory
deriving DecidableEq, Repr

/-- Raw imported Final Jeopardy block. -/
structure ImportFinalJeopardy where
  category : String
  answer : String
  correct_question : String
deriving DecidableEq, Repr

/-- The whole content JSON document. -/
structure ContentJSON where
  rounds : List ImportRound
  final_jeopardy : Option ImportFinalJeopardy
deriving DecidableEq, Repr

/-- Per-question validation from `validate` in lib/content.ts. -/
def validateQuestion (catName : String) (q : ImportQuestion) : Except String Unit := do
  if q.answer.trim.isEmpty || q.correct_question.trim.isEmpty then
    throw ("All questions in " ++ catName ++ " must have answer and correct_question.")
  if q.point_value.isNone then
    throw ("All questions in " ++ catName ++ " must have a numeric point_value.")

/-- Per-category validation from `validate` in lib/content.ts. -/
def validateCategory (cat : ImportCategory) : Except String Unit := do
  if cat.name.trim.isEmpty then
    throw "All categories must have a name."
  if cat.questions.isEmpty then
    throw ("Category " ++ cat.name ++ " must have at least one question.")
  cat.questions.forM (validateQuestion cat.name)

/-- `validate` from lib/content.ts: throws on the first malformed part,
touching no store state. -/
def validate (content : ContentJSON) : Except String Unit := do
  if content.rounds.isEmpty then
    throw "Content must have at least one round."
  content.rounds.forM (fun round => round.categories.forM validateCategory)
  match content.final_jeopardy with
  | some fj =>
    if fj.category.trim.isEmpty || fj.answer.trim.isEmpty || fj.correct_question.trim.isEmpty then
      throw "final_jeopardy must have category, answer, and correct_question."
    else pure ()
  | none => pure ()

/-- A categories-table row. -/
structure CategoryRow where
  id : Nat
  room_id : Nat
  name : String
  round : Nat
deriving DecidableEq, Repr

/-- A questions-table row as inserted by the import. -/
structure QuestionRow where
  category_id : Nat
  answer : String
  correct_question : String
  point_value : Option Int
deriving DecidableEq, Repr

/-- The content-bearing tables of the store. -/
structure ContentStore where
  categories : List CategoryRow
  questions : List QuestionRow
deriving DecidableEq, Repr

/-- `categories.delete().eq('room_id', roomId)` with CASCADE: the room's
category rows and the question rows hanging off them are removed. -/
def clearRoomContent (store : ContentStore) (roomId : Nat) : ContentStore :=
  let removedIds := (store.categories.filter (fun c => c.room_id == roomId)).map (fun c => c.id)
  { categories := store.categories.filter (fun c => c.room_id != roomId),
    questions := store.questions.filter (fun q => !(removedIds.contains q.category_id)) }

/-- Flattened (round, name, questions) triples in insertion order,
including the Final Jeopardy category (round 3, point_value null). -/
def importCats (content : ContentJSON) : List (Nat × String × List ImportQuestion) :=
  (content.rounds.flatMap (fun r => r.categories.map (fun c => (r.round, c.name, c.questions))))
    ++ (match content.final_jeopardy with
        | some fj =>
          [(3, fj.category,
            [{ point_value := none, answer := fj.answer,
               correct_question := fj.correct_question }])]
        | none => [])

/-- The category and question rows the import inserts, with fresh
category ids `startId, startId+1, ...`. -/
def buildRows (roomId startId : Nat) (content : ContentJSON) :
    List CategoryRow × List QuestionRow :=
  let entries := (importCats content).enum
  (entries.map (fun e =>
     { id := startId + e.1, room_id := roomId, name := e.2.2.1, round := e.2.1 }),
   entries.flatMap (fun e =>
     e.2.2.2.map (fun q =>
       { category_id := startId + e.1, answer := q.answer,
         correct_question := q.correct_question, point_value := q.point_value })))

/-- importContent from lib/content.ts: validate first ("Validate BEFORE
touching the database"); only on success clear the room's prior content
and insert the new rows. -/
def importContent (roomId startId : Nat) (content : ContentJSON) (store : ContentStore) :
    Except String Unit × ContentStore :=
  match validate content with
  | Except.error e => (Except.error e, store)
  | Except.ok _ =>
    let cleared := clearRoomContent store roomId
    let rows := buildRows roomId startId content
    (Except.ok (), { categories := cleared.categories ++ rows.1,
                     questions := cleared.questions ++ rows.2 })

/-! ### Helper lemmas -/

/-- Updating a team's score leaves every other team's row untouched. -/
theorem mem_updateTeamScore_of_ne {ts : List Team} {t : Team} (h : t ∈ ts)
    {tid : Nat} (hne : t.id ≠ tid) (v : Int) : t ∈ updateTeamScore ts tid v := by
  have hmem := List.mem_map_of_mem
    (fun x => if x.id = tid then { x with score := v } else x) h
  unfold updateTeamScore
  simpa [if_neg hne] using hmem

/-- Updating a buzz's status leaves every other buzz row untouched. -/
theorem mem_setBuzzStatus_of_ne {l : List Buzz} {x : Buzz} (h : x ∈ l)
    {bid : Nat} (hne : x.id ≠ bid) (st : BuzzStatus) : x ∈ setBuzzStatus l bid st := by
  have hmem := List.mem_map_of_mem (statusUpd bid st) h
  unfold setBuzzStatus
  simpa [statusUpd, if_neg hne] using hmem

/-- Updating a wager's status leaves every other wager row untouched. -/
theorem mem_setWagerStatus_of_ne {l : List Wager} {x : Wager} (h : x ∈ l)
    {wid : Nat} (hne : x.id ≠ wid) (st : WagerStatus) : x ∈ setWagerStatus l wid st := by
  have hmem := List.mem_map_of_mem
    (fun w => if w.id = wid then { w with status := st } else w) h
  unfold setWagerStatus
  simpa [if_neg hne] using hmem

/-- After updating a present team's score, looking it up returns the new
score. -/
theorem getScore_updateTeamScore_self {ts : List Team} {tid : Nat}
    (h : ∃ t ∈ ts, t.id = tid) (v : Int) :
    getScore (updateTeamScore ts tid v) tid = v := by
  induction ts with
  | nil => simp at h
  | cons t ts ih =>
    by_cases htid : t.id = tid
    · simp [updateTeamScore, getScore, htid]
    · rcases h with ⟨u, hu, huid⟩
      rcases List.mem_cons.1 hu with rfl | humem
      · exact absurd huid htid
      · have : getScore (updateTeamScore ts tid v) tid = v := ih ⟨u, humem, huid⟩
        simpa [updateTeamScore, getScore, htid] using this

/-- The code's wager clamp `max(0, min(max(0, score), raw))` coincides
with the spec's clamp of `raw` to the interval `[0, score]`. -/
theorem clampWager_eq (s r : Int) : clampWager s r = max 0 (min s r) := by
  unfold clampWager
  rcases le_total s 0 with h | h
  · rw [max_eq_left h]
    have h1 : min (0 : Int) r ≤ 0 := min_le_left 0 r
    have h2 : min s r ≤ 0 := le_trans (min_le_left s r) h
    rw [max_eq_left h1, max_eq_left h2]
  · rw [max_eq_right h]

/-- Normal form of handleCorrect when a question is active. -/
theorem handleCorrect_eq (s : GameState) (b : Buzz) (q : Question)
    (hq : activeQuestion s = some q) :
    handleCorrect s b = { s with
      buzzes := setBuzzStatus s.buzzes b.id BuzzStatus.correct,
      teams := updateTeamScore s.teams b.team_id
        (getScore s.teams b.team_id + q.point_value.getD 0),
      questions := s.questions.map (fun x =>
        if x.id = q.id then
          { x with is_answered := true, answered_by_team_id := some b.team_id }
        else x),
      judgingBuzzId := none, judgeStartTime := none,
      currentTurnTeamId := some b.team_id,
      current_question_id := none } := by
  unfold handleCorrect
  rw [hq]
  rfl

/-- handleCorrect is a no-op without an active question. -/
theorem handleCorrect_none (s : GameState) (b : Buzz)
    (hq : activeQuestion s = none) : handleCorrect s b = s := by
  unfold handleCorrect
  rw [hq]

/-- handleWrong is a no-op without an active question. -/
theorem handleWrong_none (s : GameState) (b : Buzz)
    (hq : activeQuestion s = none) : handleWrong s b = s := by
  unfold handleWrong
  rw [hq]

/-- Normal form of handleWrong when other pending buzzes remain. -/
theorem handleWrong_eq_live (s : GameState) (b : Buzz) (q : Question)
    (hq : activeQuestion s = some q)
    (hlive : ((hostQueue s).filter
        (fun x => x.status == BuzzStatus.pending && x.id != b.id)).isEmpty = false) :
    handleWrong s b = { s with
      buzzes := setBuzzStatus s.buzzes b.id BuzzStatus.wrong,
      teams := updateTeamScore s.teams b.team_id
        (getScore s.teams b.team_id - q.point_value.getD 0),
      judgingBuzzId := none, judgeStartTime := none } := by
  unfold handleWrong
  rw [hq]
  simp only [hlive, Bool.false_eq_true, if_false, clearJudging]

/-- Normal form of handleWrong when it judges the last pending buzz. -/
theorem handleWrong_eq_done (s : GameState) (b : Buzz) (q : Question)
    (hq : activeQuestion s = some q)
    (hdone : ((hostQueue s).filter
        (fun x => x.status == BuzzStatus.pending && x.id != b.id)).isEmpty = true) :
    handleWrong s b = { s with
      buzzes := setBuzzStatus s.buzzes b.id BuzzStatus.wrong,
      teams := updateTeamScore s.teams b.team_id
        (getScore s.teams b.team_id - q.point_value.getD 0),
      questions := s.questions.map (fun x =>
        if x.id = q.id then { x with is_answered := true } else x),
      judgingBuzzId := none, judgeStartTime := none,
      currentTurnTeamId := none, current_question_id := none } := by
  unfold handleWrong
  rw [hq]
  simp only [hdone, if_true, clearJudging, assignTurn, deactivateQuestion]

/-- The fields handleFJCorrect writes, in both review branches. -/
theorem handleFJCorrect_fields (s : GameState) (w : Wager) :
    (handleFJCorrect s w).teams
        = updateTeamScore s.teams w.team_id (getScore s.teams w.team_id + w.amount)
    ∧ (handleFJCorrect s w).wagers = setWagerStatus s.wagers w.id WagerStatus.correct
    ∧ (handleFJCorrect s w).buzzes = s.buzzes
    ∧ (handleFJCorrect s w).questions = s.questions := by
  by_cases h : s.fjRevealOrder.length ≤ s.fjReviewIdx + 1 <;>
    simp [handleFJCorrect, finishGame, h]

/-- The fields handleFJWrong writes, in both review branches. -/
theorem handleFJWrong_fields (s : GameState) (w : Wager) :
    (handleFJWrong s w).teams
        = updateTeamScore s.teams w.team_id (getScore s.teams w.team_id - w.amount)
    ∧ (handleFJWrong s w).wagers = setWagerStatus s.wagers w.id WagerStatus.wrong
    ∧ (handleFJWrong s w).buzzes = s.buzzes
    ∧ (handleFJWrong s w).questions = s.questions := by
  by_cases h : s.fjRevealOrder.length ≤ s.fjReviewIdx + 1 <;>
    simp [handleFJWrong, finishGame, h]

/-- statusUpd only changes the status field. -/
theorem statusUpd_buzzed_at (bid : Nat) (st : BuzzStatus) (b : Buzz) :
    (statusUpd bid st b).buzzed_at = b.buzzed_at := by
  unfold statusUpd; split <;> rfl

/-- statusUpd only changes the status field. -/
theorem statusUpd_question_id (bid : Nat) (st : BuzzStatus) (b : Buzz) :
    (statusUpd bid st b).question_id = b.question_id := by
  unfold statusUpd; split <;> rfl

/-- statusUpd only changes the status field. -/
theorem statusUpd_id (bid : Nat) (st : BuzzStatus) (b : Buzz) :
    (statusUpd bid st b).id = b.id := by
  unfold statusUpd; split <;> rfl

/-- Ordered insertion commutes with a map that preserves the sort key. -/
theorem orderedInsert_map_comm (g : Buzz → Buzz)
    (hg : ∀ x, (g x).buzzed_at = x.buzzed_at) (a : Buzz) (l : List Buzz) :
    List.orderedInsert buzzLe (g a) (l.map g)
      = (List.orderedInsert buzzLe a l).map g := by
  induction l with
  | nil => rfl
  | cons b t ih =>
    by_cases h : buzzLe a b
    · have h' : buzzLe (g a) (g b) := by
        unfold buzzLe at h ⊢; rw [hg, hg]; exact h
      simp [List.orderedInsert, h, h']
    · have h' : ¬ buzzLe (g a) (g b) := by
        unfold buzzLe at h ⊢; rw [hg, hg]; exact h
      simp [List.orderedInsert, h, h', ih]

/-- Insertion sort commutes with a map that preserves the sort key. -/
theorem insertionSort_map_comm (g : Buzz → Buzz)
    (hg : ∀ x, (g x).buzzed_at = x.buzzed_at) (l : List Buzz) :
    List.insertionSort buzzLe (l.map g)
      = (List.insertionSort buzzLe l).map g := by
  induction l with
  | nil => rfl
  | cons b t ih => simp [List.insertionSort, ih, orderedInsert_map_comm g hg]

/-- Re-fetching after a status update returns the same ordered queue with
only the targeted row's status changed. -/
theorem fetchBuzzes_setBuzzStatus (db : List Buzz) (bid : Nat) (st : BuzzStatus)
    (qid : Nat) :
    fetchBuzzes (setBuzzStatus db bid st) qid
      = (fetchBuzzes db qid).map (statusUpd bid st) := by
  unfold fetchBuzzes setBuzzStatus
  rw [List.filter_map]
  have hp : ((fun b : Buzz => b.question_id == qid) ∘ statusUpd bid st)
      = (fun b : Buzz => b.question_id == qid) := by
    funext x
    simp [Function.comp, statusUpd_question_id]
  rw [hp, insertionSort_map_comm _ (statusUpd_buzzed_at bid st)]

/-- An active question pins down the room's current_question_id and is a
row of the questions table. -/
theorem activeQuestion_some (s : GameState) (q : Question)
    (hq : activeQuestion s = some q) :
    s.current_question_id = some q.id ∧ q ∈ s.questions := by
  unfold activeQuestion at hq
  have hpred := List.find?_some hq
  have hmem := List.mem_of_find?_eq_some hq
  refine ⟨?_, hmem⟩
  have hbeq : (some q.id == s.current_question_id) = true := hpred
  exact (eq_of_beq hbeq).symm

/-! ### Example states used by witnesses and counterexamples -/


/-- Two teams in join order: team 1 with 300 points, team 2 with 100. -/
def exTeams : List Team := [{ id := 1, score := 300, is_active := true },
                            { id := 2, score := 100, is_active := true }]

/-- A 200-point unanswered question with id 7. -/
def exQ : Question := { id := 7, point_value := some 200, is_answered := false,
                        answered_by_team_id := none }

/-- Team 1's buzz, server timestamp 80. -/
def exB1 : Buzz := { id := 1, question_id := 7, team_id := 1, buzzed_at := 80,
                     status := BuzzStatus.pending }

/-- Team 2's buzz, server timestamp 100. -/
def exB2 : Buzz := { id := 2, question_id := 7, team_id := 2, buzzed_at := 100,
                     status := BuzzStatus.pending }

/-- Question 7 active with both buzzes pending and team 1 under judgment. -/
def exState : GameState :=
  { teams := exTeams, questions := [exQ], buzzes := [exB1, exB2], wagers := [],
    current_question_id := some 7, judgingBuzzId := some 1,
    judgeStartTime := some 1000, currentTurnTeamId := some 1,
    roomStatus := RoomStatus.round_1, previewInfo := none,
    fjRevealOrder := [], fjReviewIdx := 0 }

/-! ### C1 — correct judgment awards, marks, clears, relinks the lease -/

/-- Claim C1: judging a buzz correct on the active question adds exactly
the question's point_value to the buzzing team's score, marks the
question answered by that team, empties the host's buzz queue,
deactivates the question, hands the selection lease to the winning team,
and clears the judging state. -/
theorem handleCorrect_spec (s : GameState) (b : Buzz) (q : Question) (pv : Int)
    (hq : activeQuestion s = some q)
    (hpv : q.point_value = some pv)
    (hteam : ∃ t ∈ s.teams, t.id = b.team_id) :
    getScore (handleCorrect s b).teams b.team_id = getScore s.teams b.team_id + pv
    ∧ (∀ x ∈ (handleCorrect s b).questions, x.id = q.id →
        x.is_answered = true ∧ x.answered_by_team_id = some b.team_id)
    ∧ hostQueue (handleCorrect s b) = []
    ∧ (handleCorrect s b).current_question_id = none
    ∧ (handleCorrect s b).currentTurnTeamId = some b.team_id
    ∧ (handleCorrect s b).judgingBuzzId = none
    ∧ (handleCorrect s b).judgeStartTime = none := by
  have he := handleCorrect_eq s b q hq
  refine ⟨?_, ?_, ?_, ?_, ?_, ?_, ?_⟩
  · rw [he]
    show getScore (updateTeamScore s.teams b.team_id
      (getScore s.teams b.team_id + q.point_value.getD 0)) b.team_id = _
    rw [getScore_updateTeamScore_self hteam, hpv]
    rfl
  · rw [he]
    intro x hx hid
    rcases List.mem_map.1 hx with ⟨x0, _, rfl⟩
    by_cases hc : x0.id = q.id
    · simp [hc]
    · rw [if_neg hc] at hid ⊢
      exact absurd hid hc
  · rw [he]
    simp [hostQueue]
  · rw [he]
  · rw [he]
  · rw [he]
  · rw [he]

/-- Scenario C: with a prior score of 300, a correct judgment on the
active 200-point question yields score 500 with the lease handed over,
the queue cleared and the question deactivated. -/
theorem handleCorrect_spec_witness :
    getScore (handleCorrect exState exB1).teams exB1.team_id = 500
    ∧ (handleCorrect exState exB1).currentTurnTeamId = some 1
    ∧ (handleCorrect exState exB1).current_question_id = none
    ∧ hostQueue (handleCorrect exState exB1) = [] := by
  have h := handleCorrect_spec exState exB1 exQ 200 (by decide) (by decide)
    ⟨{ id := 1, score := 300, is_active := true }, by decide, by decide⟩
  refine ⟨?_, h.2.2.2.2.1, h.2.2.2.1, h.2.2.1⟩
  rw [h.1]
  decide

/-! ### C10 — judging operations touch only the judged row's team -/

/-- Claim C10: each judging handler changes only the judged team's score
and the judged buzz/wager row; every other team row, buzz row and wager
row is left in place unchanged. -/
theorem judging_frame (s : GameState) (b : Buzz) (w : Wager) :
    (∀ t ∈ s.teams, t.id ≠ b.team_id → t ∈ (handleCorrect s b).teams)
    ∧ (∀ x ∈ s.buzzes, x.id ≠ b.id → x ∈ (handleCorrect s b).buzzes)
    ∧ (handleCorrect s b).wagers = s.wagers
    ∧ (∀ t ∈ s.teams, t.id ≠ b.team_id → t ∈ (handleWrong s b).teams)
    ∧ (∀ x ∈ s.buzzes, x.id ≠ b.id → x ∈ (handleWrong s b).buzzes)
    ∧ (handleWrong s b).wagers = s.wagers
    ∧ (∀ t ∈ s.teams, t.id ≠ w.team_id → t ∈ (handleFJCorrect s w).teams)
    ∧ (∀ x ∈ s.wagers, x.id ≠ w.id → x ∈ (handleFJCorrect s w).wagers)
    ∧ (handleFJCorrect s w).buzzes = s.buzzes
    ∧ (∀ t ∈ s.teams, t.id ≠ w.team_id → t ∈ (handleFJWrong s w).teams)
    ∧ (∀ x ∈ s.wagers, x.id ≠ w.id → x ∈ (handleFJWrong s w).wagers)
    ∧ (handleFJWrong s w).buzzes = s.buzzes := by
  constructor
  · intro t ht hne
    cases hq : activeQuestion s with
    | none => rw [handleCorrect_none s b hq]; exact ht
    | some q => rw [handleCorrect_eq s b q hq]; exact mem_updateTeamScore_of_ne ht hne _
  constructor
  · intro x hx hne
    cases hq : activeQuestion s with
    | none => rw [handleCorrect_none s b hq]; exact hx
    | some q => rw [handleCorrect_eq s b q hq]; exact mem_setBuzzStatus_of_ne hx hne _
  constructor
  · cases hq : activeQuestion s with
    | none => rw [handleCorrect_none s b hq]
    | some q => rw [handleCorrect_eq s b q hq]
  constructor
  · intro t ht hne
    cases hq : activeQuestion s with
    | none => rw [handleWrong_none s b hq]; exact ht
    | some q =>
      cases hdone : ((hostQueue s).filter
          (fun x => x.status == BuzzStatus.pending && x.id != b.id)).isEmpty with
      | true => rw [handleWrong_eq_done s b q hq hdone]; exact mem_updateTeamScore_of_ne ht hne _
      | false => rw [handleWrong_eq_live s b q hq hdone]; exact mem_updateTeamScore_of_ne ht hne _
  constructor
  · intro x hx hne
    cases hq : activeQuestion s with
    | none => rw [handleWrong_none s b hq]; exact hx
    | some q =>
      cases hdone : ((hostQueue s).filter
          (fun y => y.status == BuzzStatus.pending && y.id != b.id)).isEmpty with
      | true => rw [handleWrong_eq_done s b q hq hdone]; exact mem_setBuzzStatus_of_ne hx hne _
      | false => rw [handleWrong_eq_live s b q hq hdone]; exact mem_setBuzzStatus_of_ne hx hne _
  constructor
  · cases hq : activeQuestion s with
    | none => rw [handleWrong_none s b hq]
    | some q =>
      cases hdone : ((hostQueue s).filter
          (fun y => y.status == BuzzStatus.pending && y.id != b.id)).isEmpty with
      | true => rw [handleWrong_eq_done s b q hq hdone]
      | false => rw [handleWrong_eq_live s b q hq hdone]
  constructor
  · intro t ht hne
    rw [(handleFJCorrect_fields s w).1]
    exact mem_updateTeamScore_of_ne ht hne _
  constructor
  · intro x hx hne
    rw [(handleFJCorrect_fields s w).2.1]
    exact mem_setWagerStatus_of_ne hx hne _
  constructor
  · exact (handleFJCorrect_fields s w).2.2.1
  constructor
  · intro t ht hne
    rw [(handleFJWrong_fields s w).1]
    exact mem_updateTeamScore_of_ne ht hne _
  constructor
  · intro x hx hne
    rw [(handleFJWrong_fields s w).2.1]
    exact mem_setWagerStatus_of_ne hx hne _
  · exact (handleFJWrong_fields s w).2.2.1

/-- On the two-team example, judging team 1's buzz correct leaves team
2's row exactly as it was. -/
theorem judging_frame_witness :
    ({ id := 2, score := 100, is_active := true } : Team)
      ∈ (handleCorrect exState exB1).teams
    ∧ ({ id := 2, question_id := 7, team_id := 2, buzzed_at := 100,
         status := BuzzStatus.pending } : Buzz) ∈ (handleCorrect exState exB1).buzzes := by
  have h := judging_frame exState exB1
    { id := 99, team_id := 2, amount := 0, status := WagerStatus.pending }
  exact ⟨h.1 _ (by decide) (by decide), h.2.1 _ (by decide) (by decide)⟩

/-- hostQueue unfolds to fetchBuzzes once the active question is known. -/
theorem hostQueue_eq_of_cq (s' : GameState) (qid : Nat)
    (h : s'.current_question_id = some qid) :
    hostQueue s' = fetchBuzzes s'.buzzes qid := by
  unfold hostQueue
  rw [h]

/-- After a live wrong judgment, the pending queue is the previous
pending queue minus the judged buzz, order preserved. -/
theorem pendingBuzzes_handleWrong_live (s : GameState) (b : Buzz) (q : Question)
    (hq : activeQuestion s = some q)
    (hlive : ((hostQueue s).filter
        (fun x => x.status == BuzzStatus.pending && x.id != b.id)).isEmpty = false) :
    pendingBuzzes (handleWrong s b)
      = ((hostQueue s).filter
          (fun x => x.status == BuzzStatus.pending && x.id != b.id)).map
          (statusUpd b.id BuzzStatus.wrong) := by
  have he := handleWrong_eq_live s b q hq hlive
  have hcq := (activeQuestion_some s q hq).1
  have hcq' : (handleWrong s b).current_question_id = some q.id := by
    rw [he]; exact hcq
  have hbz : (handleWrong s b).buzzes = setBuzzStatus s.buzzes b.id BuzzStatus.wrong := by
    rw [he]
  unfold pendingBuzzes
  rw [hostQueue_eq_of_cq _ _ hcq', hbz, fetchBuzzes_setBuzzStatus, List.filter_map,
      hostQueue_eq_of_cq s q.id hcq]
  congr 1
  apply List.filter_congr
  intro x _
  by_cases hid : x.id = b.id
  · simp [Function.comp, statusUpd, hid]
  · simp [Function.comp, statusUpd, hid]

/-! ### C2 — wrong judgment: counterexample and amended behaviour -/

/-- Counterexample to claim C2: with team 2's buzz still pending, judging
team 1's buzz wrong does not advance judgment to the next pending buzz —
handleWrong clears the judging state instead of selecting buzz 2 and
starting a timer. -/
theorem handleWrong_no_auto_advance :
    (handleWrong exState exB1).judgingBuzzId ≠ some exB2.id
    ∧ (handleWrong exState exB1).judgingBuzzId = none
    ∧ (handleWrong exState exB1).judgeStartTime = none := by
  decide

/-- Amended claim C2: a wrong judgment marks the buzz wrong, deducts
exactly point_value, and clears the judging state; the next pending buzz
in queue order then becomes the next-up contender, and judging it
(handleJudge) issues a freshly issued 30-second timer. -/
theorem handleWrong_spec (s : GameState) (b : Buzz) (q : Question) (pv : Int)
    (b2 : Buzz)
    (hq : activeQuestion s = some q)
    (hpv : q.point_value = some pv)
    (hteam : ∃ t ∈ s.teams, t.id = b.team_id)
    (hnext : ((hostQueue s).filter
        (fun x => x.status == BuzzStatus.pending && x.id != b.id)).head? = some b2) :
    (∀ x ∈ (handleWrong s b).buzzes, x.id = b.id → x.status = BuzzStatus.wrong)
    ∧ getScore (handleWrong s b).teams b.team_id = getScore s.teams b.team_id - pv
    ∧ (handleWrong s b).judgingBuzzId = none
    ∧ (handleWrong s b).judgeStartTime = none
    ∧ isNextUp (handleWrong s b) b2 = true
    ∧ (∀ now,
        (handleJudge (handleWrong s b) b2 now).1.judgingBuzzId = some b2.id
        ∧ (handleJudge (handleWrong s b) b2 now).1.judgeStartTime = some now
        ∧ (handleJudge (handleWrong s b) b2 now).2.start_timestamp = now
        ∧ (handleJudge (handleWrong s b) b2 now).2.duration_seconds = 30) := by
  have hlive : ((hostQueue s).filter
      (fun x => x.status == BuzzStatus.pending && x.id != b.id)).isEmpty = false := by
    cases hrp : (hostQueue s).filter
        (fun x => x.status == BuzzStatus.pending && x.id != b.id) with
    | nil => rw [hrp] at hnext; cases hnext
    | cons a t => rfl
  have he := handleWrong_eq_live s b q hq hlive
  refine ⟨?_, ?_, ?_, ?_, ?_, ?_⟩
  · rw [he]
    intro x hx hid
    rcases List.mem_map.1 hx with ⟨x0, _, rfl⟩
    unfold statusUpd at hid ⊢
    by_cases hc : x0.id = b.id
    · rw [if_pos hc]
    · rw [if_neg hc] at hid ⊢
      exact absurd hid hc
  · rw [he]
    show getScore (updateTeamScore s.teams b.team_id
      (getScore s.teams b.team_id - q.point_value.getD 0)) b.team_id = _
    rw [getScore_updateTeamScore_self hteam, hpv]
    rfl
  · rw [he]
  · rw [he]
  · unfold isNextUp
    rw [pendingBuzzes_handleWrong_live s b q hq hlive, List.head?_map, hnext]
    show ((statusUpd b.id BuzzStatus.wrong b2).id == b2.id) = true
    rw [statusUpd_id]
    simp
  · intro now
    exact ⟨rfl, rfl, rfl, rfl⟩

/-- Concrete run of the amended C2 behaviour on the two-buzz example. -/
theorem handleWrong_spec_witness :
    getScore (handleWrong exState exB1).teams 1 = getScore exState.teams 1 - 200
    ∧ isNextUp (handleWrong exState exB1) exB2 = true
    ∧ (handleJudge (handleWrong exState exB1) exB2 2000).1.judgingBuzzId = some 2
    ∧ (handleJudge (handleWrong exState exB1) exB2 2000).2.duration_seconds = 30 := by
  have h := handleWrong_spec exState exB1 exQ 200 exB2 (by decide) (by decide)
    ⟨{ id := 1, score := 300, is_active := true }, by decide, by decide⟩ (by decide)
  exact ⟨h.2.1, h.2.2.2.2.1, (h.2.2.2.2.2 2000).1, (h.2.2.2.2.2 2000).2.2.2⟩

/-! ### C3 — judging guard: counterexample and amended behaviour -/

/-- Counterexample to claim C3: buzz 2 is not the earliest pending buzz,
yet handleJudge accepts it — no controller-side rejection happens; the
buzz becomes the one under judgment. -/
theorem handleJudge_no_rejection :
    (pendingBuzzes exState).head? = some exB1
    ∧ exB2.id ≠ exB1.id
    ∧ (handleJudge exState exB2 5).1.judgingBuzzId = some exB2.id
    ∧ (handleJudge exState exB2 5).1.judgeStartTime = some 5 := by
  decide

/-- Amended claim C3: handleJudge itself performs no validation and
records whichever buzz it is given; the earliest-pending restriction
lives only in the render (isNextUp, which holds exactly for the head of
the pending queue, gates the Judge button); a client whose hasBuzzed
flag is set cannot submit a second buzz for the same question. -/
theorem judge_guard_spec (s : GameState) (b : Buzz) (now : Nat) (p : PlayerState)
    (hb : p.hasBuzzed = true) :
    (handleJudge s b now).1.judgingBuzzId = some b.id
    ∧ (isNextUp s b = true ↔ ∃ b1, (pendingBuzzes s).head? = some b1 ∧ b1.id = b.id)
    ∧ handleBuzz p = none := by
  refine ⟨rfl, ?_, ?_⟩
  · unfold isNextUp
    cases h : (pendingBuzzes s).head? with
    | none => simp
    | some first =>
      show (first.id == b.id) = true ↔ _
      constructor
      · intro hbeq
        exact ⟨first, rfl, eq_of_beq hbeq⟩
      · rintro ⟨b1, hb1, hid⟩
        injection hb1 with hfe
        subst hfe
        exact beq_iff_eq.2 hid
  · cases hmt : p.myTeamId with
    | none => simp [handleBuzz, hmt]
    | some tid =>
      cases hcq : p.current_question_id with
      | none => simp [handleBuzz, hmt, hcq]
      | some qid => simp [handleBuzz, hmt, hcq, hb]

/-- A player-client state whose hasBuzzed flag is set. -/
def exPlayerBuzzed : PlayerState :=
  { myTeamId := some 1, current_question_id := some 7, hasBuzzed := true,
    buzzing := false, myScore := 0 }

/-- Concrete instance of the amended C3 behaviour. -/
theorem judge_guard_spec_witness :
    (handleJudge exState exB1 5).1.judgingBuzzId = some exB1.id
    ∧ handleBuzz exPlayerBuzzed = none := by
  have h := judge_guard_spec exState exB1 5 exPlayerBuzzed rfl
  exact ⟨h.1, h.2.2⟩

/-! ### C4 — exhaustion: counterexample and amended behaviour -/

/-- Counterexample to claim C4: when the judging timer lapses, the code
only marks the responding team's buzz expired; the question is not
marked answered, the lease is not cleared, the question stays active
and no score changes. -/
theorem timer_lapse_no_exhaustion :
    (step (HostOp.buzzExpire exB1.id) exState).questions = [exQ]
    ∧ exQ.is_answered = false
    ∧ (step (HostOp.buzzExpire exB1.id) exState).current_question_id = some 7
    ∧ (step (HostOp.buzzExpire exB1.id) exState).currentTurnTeamId = some 1
    ∧ (step (HostOp.buzzExpire exB1.id) exState).teams = exTeams := by
  decide

/-- Amended claim C4: exhaustion happens only through handleWrong — when
the wrong-judged buzz was the last pending one, the question is marked
is_answered with no answering team recorded, the lease is cleared and
the question deactivated, and no team other than the judged one changes
score.  A judging-timer lapse by itself only marks the buzz expired and
changes nothing else. -/
theorem exhausted_spec (s : GameState) (b : Buzz) (q : Question)
    (hq : activeQuestion s = some q)
    (hnull : q.answered_by_team_id = none)
    (hdone : ((hostQueue s).filter
        (fun x => x.status == BuzzStatus.pending && x.id != b.id)).isEmpty = true) :
    (handleWrong s b).current_question_id = none
    ∧ (handleWrong s b).currentTurnTeamId = none
    ∧ ({ q with is_answered := true } : Question) ∈ (handleWrong s b).questions
    ∧ ({ q with is_answered := true } : Question).answered_by_team_id = none
    ∧ (∀ t ∈ s.teams, t.id ≠ b.team_id → t ∈ (handleWrong s b).teams)
    ∧ (∀ bid,
        ({ s with buzzes := timerExpireSelfReport s.buzzes bid } : GameState).questions
            = s.questions
        ∧ ({ s with buzzes := timerExpireSelfReport s.buzzes bid } : GameState).teams
            = s.teams
        ∧ ({ s with buzzes := timerExpireSelfReport s.buzzes bid } : GameState).current_question_id
            = s.current_question_id
        ∧ ({ s with buzzes := timerExpireSelfReport s.buzzes bid } : GameState).currentTurnTeamId
            = s.currentTurnTeamId) := by
  have he := handleWrong_eq_done s b q hq hdone
  refine ⟨?_, ?_, ?_, hnull, ?_, ?_⟩
  · rw [he]
  · rw [he]
  · rw [he]
    have hqm := (activeQuestion_some s q hq).2
    have hmem := List.mem_map_of_mem
      (fun x => if x.id = q.id then { x with is_answered := true } else x) hqm
    simpa using hmem
  · intro t ht hne
    rw [he]
    exact mem_updateTeamScore_of_ne ht hne _
  · intro bid
    exact ⟨rfl, rfl, rfl, rfl⟩

/-- Scenario D on a one-buzz example: judging the only pending buzz wrong
marks the question answered with no answering team, clears the lease and
deactivates the question. -/
theorem exhausted_spec_witness :
    (handleWrong { exState with buzzes := [exB1] } exB1).current_question_id = none
    ∧ (handleWrong { exState with buzzes := [exB1] } exB1).currentTurnTeamId = none
    ∧ ({ exQ with is_answered := true } : Question)
        ∈ (handleWrong { exState with buzzes := [exB1] } exB1).questions := by
  have h := exhausted_spec { exState with buzzes := [exB1] } exB1 exQ
    (by decide) (by decide) (by decide)
  exact ⟨h.1, h.2.1, h.2.2.1⟩

/-! ### C7 — Final-round wager clamped to [0, team.score] -/

/-- Claim C7: for every Final-round wager submission, the stored amount
equals the raw input clamped to the interval [0, team.score], regardless
of the raw value. -/
theorem wager_clamp_spec (p : PlayerState) (raw : Int) (tid newId : Nat)
    (ht : p.myTeamId = some tid) :
    clampWager p.myScore raw = max 0 (min p.myScore raw)
    ∧ ∃ w, handleSubmitWager p raw newId = some w
        ∧ w.amount = max 0 (min p.myScore raw)
        ∧ w.team_id = tid ∧ w.status = WagerStatus.pending := by
  refine ⟨clampWager_eq p.myScore raw, ?_⟩
  refine ⟨{ id := newId, team_id := tid, amount := clampWager p.myScore raw,
            status := WagerStatus.pending }, ?_, clampWager_eq p.myScore raw, rfl, rfl⟩
  simp [handleSubmitWager, ht]

/-- Scenario E: a team with score 400 submitting a raw wager of 600 has a
stored amount of exactly 400. -/
theorem wager_clamp_spec_witness :
    ∃ w, handleSubmitWager
        { myTeamId := some 2, current_question_id := none, hasBuzzed := false,
          buzzing := false, myScore := 400 } 600 9 = some w
      ∧ w.amount = 400 := by
  rcases (wager_clamp_spec
      { myTeamId := some 2, current_question_id := none, hasBuzzed := false,
        buzzing := false, myScore := 400 } 600 2 9 rfl).2 with ⟨w, hw, ha, _, _⟩
  exact ⟨w, hw, by rw [ha]; decide⟩

/-! ### C8 — question activation is idempotent -/

/-- Claim C8: writing the same current_question_id a second time, or
applying the activation broadcast a second time, changes neither the room
row nor any client projection, and the effects keyed on
current_question_id do not re-fire on the duplicate. -/
theorem activation_idem (r : RoomRow) (c : ClientProj) (s : GameState) (qid : Nat) :
    writeCurrentQuestion (writeCurrentQuestion r qid) qid = writeCurrentQuestion r qid
    ∧ applyQuestionActivated (applyQuestionActivated c qid) qid
        = applyQuestionActivated c qid
    ∧ activateQuestion (activateQuestion s qid) qid = activateQuestion s qid
    ∧ effectRefires (applyQuestionActivated c qid).current_question_id
        (applyQuestionActivated (applyQuestionActivated c qid) qid).current_question_id
        = false := by
  refine ⟨rfl, rfl, rfl, ?_⟩
  simp [effectRefires, applyQuestionActivated]

/-! ### C9 — content import is commit-after-validate -/

/-- Claim C9: importContent validates the whole document before any
destructive mutation; when validation fails the store is returned
completely untouched and the error is surfaced. -/
theorem importContent_commit_after_validate
    (roomId startId : Nat) (content : ContentJSON) (store : ContentStore) (e : String)
    (hv : validate content = Except.error e) :
    importContent roomId startId content store = (Except.error e, store) := by
  simp [importContent, hv]

/-- A malformed document (no rounds) leaves a populated store untouched. -/
theorem importContent_commit_after_validate_witness :
    importContent 5 10 { rounds := [], final_jeopardy := none }
        { categories := [{ id := 1, room_id := 5, name := "Old", round := 1 }],
          questions := [{ category_id := 1, answer := "a", correct_question := "b",
                          point_value := some 100 }] }
      = (Except.error "Content must have at least one round.",
         { categories := [{ id := 1, room_id := 5, name := "Old", round := 1 }],
           questions := [{ category_id := 1, answer := "a", correct_question := "b",
                           point_value := some 100 }] }) :=
  importContent_commit_after_validate 5 10 _ _ _ rfl

/-! ### C5 — queue order is server-timestamp order, arrival-independent -/

/-- A ≤-sorted buzz list with pairwise-distinct timestamps is strictly
sorted by timestamp. -/
theorem sorted_strict_of_nodup {l : List Buzz}
    (hs : List.Sorted buzzLe l)
    (hnd : (l.map (fun b => b.buzzed_at)).Nodup) :
    List.Pairwise (fun a b : Buzz => a.buzzed_at < b.buzzed_at) l := by
  have hne : List.Pairwise (fun a b : Buzz => a.buzzed_at ≠ b.buzzed_at) l :=
    List.pairwise_map.mp hnd
  have hle : List.Pairwise buzzLe l := hs
  exact (hle.and hne).imp (fun h => Nat.lt_of_le_of_ne h.1 h.2)

/-- Claim C5: the judging queue for a question equals ascending order of
the server-assigned buzzed_at timestamps — two stores holding the same
buzz rows in any arrival order fetch identical queues; the fetched queue
is a timestamp-sorted permutation of the question's rows; and a buzz
insert stores the server's own time as the ordering key (the client
payload carries none). -/
theorem buzz_order_spec (db1 db2 : List Buzz) (qid : Nat)
    (hperm : db1.Perm db2)
    (hnodup : ((db1.filter (fun b => b.question_id == qid)).map
        (fun b => b.buzzed_at)).Nodup) :
    fetchBuzzes db1 qid = fetchBuzzes db2 qid
    ∧ (fetchBuzzes db1 qid).Perm (db1.filter (fun b => b.question_id == qid))
    ∧ List.Sorted buzzLe (fetchBuzzes db1 qid)
    ∧ (∀ p newId serverTime,
        (serverInsertBuzz db1 p newId serverTime).map (fun b => b.buzzed_at)
          = db1.map (fun b => b.buzzed_at) ++ [serverTime]) := by
  haveI : IsAntisymm Buzz (fun a b : Buzz => a.buzzed_at < b.buzzed_at) :=
    ⟨fun _ _ h h' => absurd h' (Nat.lt_asymm h)⟩
  have hp1 : (fetchBuzzes db1 qid).Perm
      (db1.filter (fun b => b.question_id == qid)) :=
    List.perm_insertionSort buzzLe _
  have hp2 : (fetchBuzzes db2 qid).Perm
      (db2.filter (fun b => b.question_id == qid)) :=
    List.perm_insertionSort buzzLe _
  have hfp : (db1.filter (fun b => b.question_id == qid)).Perm
      (db2.filter (fun b => b.question_id == qid)) := hperm.filter _
  have hs1 : List.Sorted buzzLe (fetchBuzzes db1 qid) :=
    List.sorted_insertionSort buzzLe _
  have hs2 : List.Sorted buzzLe (fetchBuzzes db2 qid) :=
    List.sorted_insertionSort buzzLe _
  have hq12 : (fetchBuzzes db1 qid).Perm (fetchBuzzes db2 qid) :=
    (hp1.trans hfp).trans hp2.symm
  have hnd1 : ((fetchBuzzes db1 qid).map (fun b => b.buzzed_at)).Nodup :=
    ((hp1.map (fun b => b.buzzed_at)).nodup_iff).2 hnodup
  have hnd2 : ((fetchBuzzes db2 qid).map (fun b => b.buzzed_at)).Nodup :=
    ((hq12.map (fun b => b.buzzed_at)).nodup_iff).1 hnd1
  refine ⟨?_, hp1, hs1, ?_⟩
  · exact List.eq_of_perm_of_sorted hq12
      (sorted_strict_of_nodup hs1 hnd1) (sorted_strict_of_nodup hs2 hnd2)
  · intro p newId serverTime
    simp [serverInsertBuzz]

/-- Scenario A: buzzes arriving in reversed network order still fetch as
[team 1 at 80ms, team 2 at 100ms]. -/
theorem buzz_order_spec_witness :
    fetchBuzzes [exB2, exB1] 7 = fetchBuzzes [exB1, exB2] 7
    ∧ fetchBuzzes [exB2, exB1] 7 = [exB1, exB2] := by
  have h := buzz_order_spec [exB2, exB1] [exB1, exB2] 7
    (List.Perm.swap exB1 exB2 []) (by decide)
  exact ⟨h.1, by decide⟩

/-! ### C6 — round-2 → final cut and is_active monotonicity -/

/-- Generic transfer: a pointwise team update that preserves ids and
never turns is_active on is monotone for is_active. -/
theorem teams_mono_of_map {ts : List Team} {f : Team → Team}
    (hid : ∀ t, (f t).id = t.id)
    (hact : ∀ t, (f t).is_active = true → t.is_active = true) :
    ∀ t' ∈ ts.map f, t'.is_active = true →
      ∃ t ∈ ts, t.id = t'.id ∧ t.is_active = true := by
  intro t' ht' hact'
  rcases List.mem_map.1 ht' with ⟨t, ht, rfl⟩
  exact ⟨t, ht, (hid t).symm, hact t hact'⟩

/-- Unchanged team lists are trivially is_active-monotone. -/
theorem teams_mono_refl (ts : List Team) :
    ∀ t' ∈ ts, t'.is_active = true →
      ∃ t ∈ ts, t.id = t'.id ∧ t.is_active = true :=
  fun t' h ha => ⟨t', h, rfl, ha⟩

/-- Score updates are is_active-monotone. -/
theorem updateTeamScore_mono (ts : List Team) (tid : Nat) (v : Int) :
    ∀ t' ∈ updateTeamScore ts tid v, t'.is_active = true →
      ∃ t ∈ ts, t.id = t'.id ∧ t.is_active = true := by
  apply teams_mono_of_map
  · intro t
    by_cases h : t.id = tid
    · rw [if_pos h]
    · rw [if_neg h]
  · intro t ht
    by_cases h : t.id = tid
    · rw [if_pos h] at ht; exact ht
    · rw [if_neg h] at ht; exact ht

/-- handleCorrect is is_active-monotone. -/
theorem mono_handleCorrect (s : GameState) (b : Buzz) :
    ∀ t' ∈ (handleCorrect s b).teams, t'.is_active = true →
      ∃ t ∈ s.teams, t.id = t'.id ∧ t.is_active = true := by
  cases hq : activeQuestion s with
  | none => rw [handleCorrect_none s b hq]; exact teams_mono_refl _
  | some q => rw [handleCorrect_eq s b q hq]; exact updateTeamScore_mono _ _ _

/-- handleWrong is is_active-monotone. -/
theorem mono_handleWrong (s : GameState) (b : Buzz) :
    ∀ t' ∈ (handleWrong s b).teams, t'.is_active = true →
      ∃ t ∈ s.teams, t.id = t'.id ∧ t.is_active = true := by
  cases hq : activeQuestion s with
  | none => rw [handleWrong_none s b hq]; exact teams_mono_refl _
  | some q =>
    cases hdone : ((hostQueue s).filter
        (fun x => x.status == BuzzStatus.pending && x.id != b.id)).isEmpty with
    | true => rw [handleWrong_eq_done s b q hq hdone]; exact updateTeamScore_mono _ _ _
    | false => rw [handleWrong_eq_live s b q hq hdone]; exact updateTeamScore_mono _ _ _

/-- handleFJCorrect is is_active-monotone. -/
theorem mono_handleFJCorrect (s : GameState) (w : Wager) :
    ∀ t' ∈ (handleFJCorrect s w).teams, t'.is_active = true →
      ∃ t ∈ s.teams, t.id = t'.id ∧ t.is_active = true := by
  rw [(handleFJCorrect_fields s w).1]
  exact updateTeamScore_mono _ _ _

/-- handleFJWrong is is_active-monotone. -/
theorem mono_handleFJWrong (s : GameState) (w : Wager) :
    ∀ t' ∈ (handleFJWrong s w).teams, t'.is_active = true →
      ∃ t ∈ s.teams, t.id = t'.id ∧ t.is_active = true := by
  rw [(handleFJWrong_fields s w).1]
  exact updateTeamScore_mono _ _ _

/-- startFinalJeopardy is is_active-monotone: it can only turn teams off. -/
theorem mono_startFJ (s : GameState) :
    ∀ t' ∈ (startFinalJeopardy s).teams, t'.is_active = true →
      ∃ t ∈ s.teams, t.id = t'.id ∧ t.is_active = true := by
  unfold startFinalJeopardy
  apply teams_mono_of_map
  · intro t
    by_cases h : ((rankTeams s.teams).drop 3).any (fun e => e.id == t.id) = true
    · rw [if_pos h]
    · rw [if_neg h]
  · intro t ht
    by_cases h : ((rankTeams s.teams).drop 3).any (fun e => e.id == t.id) = true
    · rw [if_pos h] at ht; cases ht
    · rw [if_neg h] at ht; exact ht

/-- No modeled operation ever sets a team's is_active back to true. -/
theorem step_mono (op : HostOp) (s' : GameState) :
    ∀ t' ∈ (step op s').teams, t'.is_active = true →
      ∃ t ∈ s'.teams, t.id = t'.id ∧ t.is_active = true := by
  cases op with
  | judge b now => exact teams_mono_refl _
  | markCorrect b => exact mono_handleCorrect _ _
  | markWrong b => exact mono_handleWrong _ _
  | fjCorrect w => exact mono_handleFJCorrect _ _
  | fjWrong w => exact mono_handleFJWrong _ _
  | activate qid => exact teams_mono_refl _
  | deactivate => exact teams_mono_refl _
  | turn tid => exact teams_mono_refl _
  | startFJ => exact mono_startFJ _
  | finish => exact teams_mono_refl _
  | scoreEdit tid v => exact updateTeamScore_mono _ _ _
  | round2 => exact teams_mono_refl _
  | buzzInsert p newId serverTime => exact teams_mono_refl _
  | buzzExpire bid => exact teams_mono_refl _
  | wagerInsert w => exact teams_mono_refl _

/-- Claim C6: at the round_2 → final_jeopardy transition, a team ends
is_active exactly when it is among the top 3 of the stable descending
score ranking (ties keeping join order); the cut has size min 3 n; the
room moves to final_jeopardy; and no modeled operation ever turns
is_active back on. -/
theorem startFJ_top3_spec (s : GameState)
    (hnodup : (s.teams.map (fun t => t.id)).Nodup)
    (hactive : ∀ t ∈ s.teams, t.is_active = true) :
    (∀ t' ∈ (startFinalJeopardy s).teams,
        t'.is_active = true ↔ t'.id ∈ top3ids s.teams)
    ∧ (top3ids s.teams).length = min 3 s.teams.length
    ∧ (startFinalJeopardy s).roomStatus = RoomStatus.final_jeopardy
    ∧ (∀ op s' t', t' ∈ (step op s').teams → t'.is_active = true →
        ∃ t ∈ s'.teams, t.id = t'.id ∧ t.is_active = true) := by
  have hrperm : (rankTeams s.teams).Perm s.teams := List.perm_insertionSort _ _
  have hidnodup : ((rankTeams s.teams).map (fun t => t.id)).Nodup :=
    ((hrperm.map (fun t => t.id)).nodup_iff).2 hnodup
  refine ⟨?_, ?_, rfl, fun op s' => step_mono op s'⟩
  · intro t' ht'
    have ht'' : t' ∈ s.teams.map (fun t =>
        if ((rankTeams s.teams).drop 3).any (fun e => e.id == t.id) then
          { t with is_active := false } else t) := ht'
    rcases List.mem_map.1 ht'' with ⟨t, ht, rfl⟩
    by_cases helim : ((rankTeams s.teams).drop 3).any (fun e => e.id == t.id) = true
    · rw [if_pos helim]
      constructor
      · intro h
        exact absurd h Bool.false_ne_true
      · intro hmem
        exfalso
        rcases List.any_eq_true.1 helim with ⟨e, he, hbeq⟩
        have heid : e.id = t.id := eq_of_beq hbeq
        have h1 : ({ t with is_active := false } : Team).id
            ∈ ((rankTeams s.teams).take 3).map (fun x => x.id) := hmem
        have h2 : ({ t with is_active := false } : Team).id
            ∈ ((rankTeams s.teams).drop 3).map (fun x => x.id) := by
          show t.id ∈ _
          rw [← heid]
          exact List.mem_map_of_mem _ he
        have hsplit : (rankTeams s.teams).map (fun x => x.id)
            = ((rankTeams s.teams).take 3).map (fun x => x.id)
              ++ ((rankTeams s.teams).drop 3).map (fun x => x.id) := by
          rw [← List.map_append, List.take_append_drop]
        have hnd := hidnodup
        rw [hsplit] at hnd
        exact (List.disjoint_of_nodup_append hnd) h1 h2
    · rw [if_neg helim]
      have hta : t.is_active = true := hactive t ht
      have htr : t ∈ rankTeams s.teams := hrperm.mem_iff.2 ht
      rw [← List.take_append_drop 3 (rankTeams s.teams)] at htr
      rcases List.mem_append.1 htr with hc | hc
      · exact iff_of_true hta (List.mem_map_of_mem _ hc)
      · exfalso
        exact helim (List.any_eq_true.2 ⟨t, hc, by simp⟩)
  · show (((rankTeams s.teams).take 3).map (fun t => t.id)).length = _
    rw [List.length_map, List.length_take, hrperm.length_eq]

/-- Four teams with scores 100, 300, 200, 50 (join order): after the
transition the 50-point team is inactive and outside the top-3 id cut. -/
theorem startFJ_top3_spec_witness :
    (({ id := 4, score := 50, is_active := false } : Team).is_active = true
      ↔ 4 ∈ top3ids ({ exState with teams :=
            [{ id := 1, score := 100, is_active := true },
             { id := 2, score := 300, is_active := true },
             { id := 3, score := 200, is_active := true },
             { id := 4, score := 50, is_active := true }] } : GameState).teams)
    ∧ (top3ids ({ exState with teams :=
            [{ id := 1, score := 100, is_active := true },
             { id := 2, score := 300, is_active := true },
             { id := 3, score := 200, is_active := true },
             { id := 4, score := 50, is_active := true }] } : GameState).teams).length
        = min 3 4 := by
  have h := startFJ_top3_spec ({ exState with teams :=
      [{ id := 1, score := 100, is_active := true },
       { id := 2, score := 300, is_active := true },
       { id := 3, score := 200, is_active := true },
       { id := 4, score := 50, is_active := true }] } : GameState)
    (by decide) (by decide)
  exact ⟨h.1 _ (by decide), h.2.1⟩

end IpaGames
